import Mathlib

/-!
Verification of the trio-parallel core against its sources.

The development shallowly embeds the parts of the code that the claims
touch: the framed pipe channel of `_proc.py` (PosixWorkerProc), the worker
main loop of `WorkerProcBase._work`, the result envelope handling of
`WorkerProcBase.run_sync` and the dispatcher `_impl.run_sync`, the worker
cache of `_worker_processes.py` (ProcCache), the scope validation of
`_impl.cache_scope`, and the default limiter of `_impl.py`.

Machine integers are modelled as Nat with explicit `% 256` per byte;
byte strings are lists of Nat. Fallible code returns Option or Except.
-/

namespace TrioParallel

/-! ## Bytes and struct packing

Models of `struct.pack` / `struct.unpack` with the format codes used in
`_proc.py`: `"!i"` (4-byte big-endian signed) and `"!Q"` (8-byte
big-endian unsigned). -/

abbrev Bytes := List Nat

/-- Big-endian value of a byte list, as `struct.unpack` computes it. -/
def beNat (b : Bytes) : Nat :=
  b.foldl (fun acc x => acc * 256 + x) 0

/-- Model of `struct.pack("!i", v)` for `v` in the signed 32-bit range:
two's-complement big-endian bytes. -/
def pack_i32 (v : Int) : Bytes :=
  let u := (v % (2 ^ 32 : Int)).toNat
  [u / 2 ^ 24 % 256, u / 2 ^ 16 % 256, u / 2 ^ 8 % 256, u % 256]

/-- Model of `struct.pack("!Q", v)`: 8-byte big-endian unsigned. -/
def pack_u64 (v : Nat) : Bytes :=
  [v / 2 ^ 56 % 256, v / 2 ^ 48 % 256, v / 2 ^ 40 % 256, v / 2 ^ 32 % 256,
   v / 2 ^ 24 % 256, v / 2 ^ 16 % 256, v / 2 ^ 8 % 256, v % 256]

/-- Model of `struct.unpack("!i", b)` on a 4-byte buffer: big-endian
two's-complement decoding. -/
def unpack_i32 (b : Bytes) : Int :=
  let u := beNat b
  if u < 2 ^ 31 then (u : Int) else (u : Int) - 2 ^ 32

/-! ## Framed pipe channel

Transcription of `PosixWorkerProc._recv_exactly`, `_recv` and `_send`
(`_proc.py` lines 168-211). The byte stream delivered by
`FdStream.receive_some` is modelled as a list of bytes together with a
chunk schedule: each loop iteration of `_recv_exactly` receives between 1
and `size` bytes (bounded by what the stream still holds), the schedule
choosing the chunk size, so that every possible chunking of the stream is
covered by quantifying over schedules. A read that returns zero bytes
(the stream is exhausted) models the empty read that raises
`trio.EndOfChannel`. -/

inductive FramingError where
  | eof        -- trio.EndOfChannel("got end of file during message")
  | oversized  -- RuntimeError("Oversized response")
  deriving DecidableEq, Repr

/-- Transcription of `_recv_exactly` (`_proc.py` lines 176-188): loop
receiving chunks until `size` bytes are accumulated; an empty read raises
end-of-channel; a chunk larger than the remaining size would raise the
oversized error (unreachable, kept for fidelity). Returns the bytes read
and the rest of the stream. -/
def recv_exactly (sched : List Nat) (stream : Bytes) (size : Nat) :
    Except FramingError (Bytes × Bytes) :=
  if _h : size = 0 then
    .ok ([], stream)
  else
    match stream with
    | [] => .error .eof
    | x :: xs =>
      -- receive_some(size) returns between 1 and size bytes, at most
      -- what the stream holds; the schedule head picks the amount.
      let c := min (min size (max 1 (sched.headD size))) (x :: xs).length
      if c > size then
        .error .oversized
      else
        match recv_exactly sched.tail ((x :: xs).drop c) (size - c) with
        | .error e => .error e
        | .ok (rest_bytes, leftover) =>
          .ok ((x :: xs).take c ++ rest_bytes, leftover)
  termination_by size
  decreasing_by
    simp only [List.length_cons]
    omega

/-- Transcription of `_recv` (`_proc.py` lines 168-174): read a 4-byte
header, interpret it as a signed big-endian length, on `-1` read an
8-byte extended unsigned length, then read exactly that many payload
bytes. Each of the three reads takes its own chunk schedule. -/
def recv_msg (s1 s2 s3 : List Nat) (stream : Bytes) :
    Except FramingError (Bytes × Bytes) :=
  match recv_exactly s1 stream 4 with
  | .error e => .error e
  | .ok (hdr, rest) =>
    let size := unpack_i32 hdr
    if size = -1 then
      match recv_exactly s2 rest 8 with
      | .error e => .error e
      | .ok (hdr2, rest2) => recv_exactly s3 rest2 (beNat hdr2)
    else
      recv_exactly s3 rest size.toNat

/-- Transcription of `_send` (`_proc.py` lines 190-211) as the list of
`send_all` writes it performs: above the signed 32-bit range a `-1`
header, an 8-byte extended length and the payload as three writes; in
range, header and payload as two writes above 16384 bytes and as one
concatenated write otherwise. -/
def send_writes (buf : Bytes) : List Bytes :=
  let n := buf.length
  if n > 0x7FFFFFFF then
    [pack_i32 (-1), pack_u64 n, buf]
  else if n > 16384 then
    [pack_i32 (n : Int), buf]
  else
    [pack_i32 (n : Int) ++ buf]

/-- Bytes appearing on the wire: a pipe is a byte stream, so the
successive writes concatenate. -/
def send_wire (buf : Bytes) : Bytes :=
  (send_writes buf).flatten

/-! ### Framing lemmas -/

/-- Requesting zero bytes succeeds immediately, leaving the stream
untouched: the while loop of `_recv_exactly` is not entered. -/
theorem recv_exactly_zero (sched : List Nat) (stream : Bytes) :
    recv_exactly sched stream 0 = .ok ([], stream) := by
  rw [recv_exactly.eq_def]
  simp

/-- When the stream starts with exactly the requested number of bytes,
`_recv_exactly` returns them and leaves the rest, whatever the chunking. -/
theorem recv_exactly_exact (size : Nat) (sched : List Nat) (pre rest : Bytes)
    (hlen : pre.length = size) :
    recv_exactly sched (pre ++ rest) size = .ok (pre, rest) := by
  induction size using Nat.strong_induction_on generalizing sched pre with
  | _ size ih =>
    match size, pre, hlen with
    | 0, [], _ => exact recv_exactly_zero sched rest
    | (n + 1), (p :: ps), hlen =>
      have hps : ps.length = n := by
        simp only [List.length_cons] at hlen
        omega
      rw [recv_exactly.eq_def]
      simp only [Nat.add_one_ne_zero, dite_false, List.cons_append]
      set c := min (min (n + 1) (max 1 (sched.headD (n + 1))))
        (p :: (ps ++ rest)).length with hcdef
      simp only [List.length_cons, List.length_append] at hcdef
      have hcle : c ≤ n + 1 := by omega
      have hcpre : c ≤ (p :: ps).length := by
        simp only [List.length_cons]
        omega
      have hgt : ¬ c > n + 1 := by omega
      rw [if_neg hgt]
      have hdrop : (p :: (ps ++ rest)).drop c = (p :: ps).drop c ++ rest := by
        rw [show (p :: (ps ++ rest)) = (p :: ps) ++ rest from rfl]
        exact List.drop_append_of_le_length hcpre
      have htake : (p :: (ps ++ rest)).take c = (p :: ps).take c := by
        rw [show (p :: (ps ++ rest)) = (p :: ps) ++ rest from rfl]
        exact List.take_append_of_le_length hcpre
      have hlen2 : ((p :: ps).drop c).length = n + 1 - c := by
        simp only [List.length_drop, List.length_cons]
        omega
      rw [hdrop, ih (n + 1 - c) (by omega) sched.tail _ hlen2]
      simp only [htake, List.take_append_drop]

/-- Big-endian recombination for 4 bytes produced from a value below
`2 ^ 32`. -/
theorem beNat_four_digits (u : Nat) (h : u < 2 ^ 32) :
    beNat [u / 2 ^ 24 % 256, u / 2 ^ 16 % 256, u / 2 ^ 8 % 256, u % 256] = u := by
  simp only [beNat, List.foldl]
  omega

/-- Big-endian recombination for the 8 bytes of `pack_u64` below
`2 ^ 64`. -/
theorem beNat_pack_u64 (n : Nat) (h : n < 2 ^ 64) : beNat (pack_u64 n) = n := by
  simp only [pack_u64, beNat, List.foldl]
  omega

/-- Packing a non-negative in-range length gives its plain big-endian
bytes. -/
theorem pack_i32_ofNat (n : Nat) (h : n < 2 ^ 32) :
    pack_i32 (n : Int) =
      [n / 2 ^ 24 % 256, n / 2 ^ 16 % 256, n / 2 ^ 8 % 256, n % 256] := by
  simp only [pack_i32]
  have he : (((n : Int)) % ((2 : Int) ^ 32)).toNat = n := by
    rw [Int.emod_eq_of_lt (by omega) (by exact_mod_cast h)]
    exact Int.toNat_ofNat n
  rw [he]

/-- Header decoding inverts header encoding in the signed 32-bit
positive range. -/
theorem unpack_pack_small (n : Nat) (h : n ≤ 0x7FFFFFFF) :
    unpack_i32 (pack_i32 (n : Int)) = (n : Int) := by
  rw [pack_i32_ofNat n (by omega)]
  simp only [unpack_i32]
  rw [beNat_four_digits n (by omega)]
  have h31 : n < 2 ^ 31 := by omega
  rw [if_pos h31]

/-- The sentinel header `-1` decodes back to `-1`. -/
theorem unpack_pack_neg_one : unpack_i32 (pack_i32 (-1)) = -1 := by decide

/-- Length of a packed 32-bit header. -/
theorem pack_i32_length (v : Int) : (pack_i32 v).length = 4 := rfl

/-- Length of a packed 64-bit extended header. -/
theorem pack_u64_length (v : Nat) : (pack_u64 v).length = 8 := rfl

/-- Receiving a sent message yields exactly the original payload and
consumes the whole wire, for every chunk schedule, as long as the length
fits the 8-byte extended header. -/
theorem recv_msg_send_wire (s1 s2 s3 : List Nat) (buf : Bytes)
    (h : buf.length < 2 ^ 64) :
    recv_msg s1 s2 s3 (send_wire buf) = .ok (buf, []) := by
  have hbuf : recv_exactly s3 buf buf.length = .ok (buf, []) := by
    have := recv_exactly_exact buf.length s3 buf [] rfl
    simpa using this
  by_cases hbig : buf.length > 0x7FFFFFFF
  · have hwire : send_wire buf = pack_i32 (-1) ++ (pack_u64 buf.length ++ buf) := by
      simp [send_wire, send_writes, hbig]
    rw [recv_msg, hwire,
      recv_exactly_exact 4 s1 (pack_i32 (-1)) _ (pack_i32_length (-1))]
    show (if unpack_i32 (pack_i32 (-1)) = -1 then _ else _) = _
    rw [unpack_pack_neg_one, if_pos rfl,
      recv_exactly_exact 8 s2 (pack_u64 buf.length) buf (pack_u64_length _)]
    show recv_exactly s3 buf (beNat (pack_u64 buf.length)) = _
    rw [beNat_pack_u64 buf.length h]
    exact hbuf
  · have hwire : send_wire buf = pack_i32 (buf.length : Int) ++ buf := by
      by_cases hmid : buf.length > 16384
      · simp [send_wire, send_writes, hbig, hmid]
      · simp [send_wire, send_writes, hbig, hmid]
    rw [recv_msg, hwire,
      recv_exactly_exact 4 s1 (pack_i32 (buf.length : Int)) buf
        (pack_i32_length _)]
    show (if unpack_i32 (pack_i32 (buf.length : Int)) = -1 then _ else _) = _
    rw [unpack_pack_small buf.length (by omega)]
    have hne : ((buf.length : Int)) ≠ -1 := by omega
    rw [if_neg hne]
    have ht : ((buf.length : Int)).toNat = buf.length := by omega
    rw [ht]
    exact hbuf

/-! ## Data model: Python values, exceptions, result envelopes

A concrete universe of Python values sufficient for the claims. A
coroutine object (an unstarted asynchronous computation, identified by a
number) is what `inspect.iscoroutine` detects. Exceptions carry a kind
and a message (message text as bytes). User functions are modelled as
Lean functions from positional arguments to either a value or a raised
exception. -/

inductive PyVal where
  | none
  | bool : Bool → PyVal
  | int : Int → PyVal
  | bytes : Bytes → PyVal
  | coroutine : Nat → PyVal
  deriving DecidableEq, Repr

inductive ExnKind where
  | typeError
  | zeroDivisionError
  | valueError
  | indexError
  | userDefined : Nat → ExnKind
  deriving DecidableEq, Repr

structure PyExn where
  kind : ExnKind
  msg : Bytes
  deriving DecidableEq, Repr

/-- A synchronous Python callable: positional arguments in, a returned
value or a raised exception out. -/
abbrev PyFn := List PyVal → Except PyExn PyVal

/-- Model of `inspect.iscoroutine`. -/
def iscoroutine : PyVal → Bool
  | .coroutine _ => true
  | _ => false

/-- Message of the type error raised by the worker for async callables
(`_proc.py` lines 50-53), as an abstract byte text. -/
def asyncFnMsg : Bytes := [84, 80, 45, 97, 115, 121, 110, 99]

/-- Transcription of `coroutine_checker` (`_proc.py` lines 45-55): invoke
the function; if the returned value is a coroutine, close it and raise
`TypeError`, otherwise return the value. -/
def coroutine_checker (fn : PyFn) (args : List PyVal) : Except PyExn PyVal :=
  match fn args with
  | .error e => .error e
  | .ok ret =>
    if iscoroutine ret then
      .error ⟨.typeError, asyncFnMsg⟩
    else
      .ok ret

/-- Whether `coroutine_checker` invokes `ret.close()`: exactly the branch
of `_proc.py` line 49, taken when the call returned a coroutine. -/
def coroutine_checker_closes (fn : PyFn) (args : List PyVal) : Bool :=
  match fn args with
  | .error _ => false
  | .ok ret => iscoroutine ret

/-- Result envelope: `outcome.Value` / `outcome.Error` as produced by
`outcome.capture` in the worker (`_proc.py` line 66). -/
inductive Outcome where
  | Ok : PyVal → Outcome
  | Err : PyExn → Outcome
  deriving DecidableEq, Repr

/-- Model of `outcome.capture`: package a return value as `Ok` and a
raised exception as `Err`. -/
def capture (r : Except PyExn PyVal) : Outcome :=
  match r with
  | .ok v => .Ok v
  | .error e => .Err e

/-- Model of `Outcome.unwrap`: return the `Ok` value, re-raise the `Err`
exception. -/
def Outcome.unwrap : Outcome → Except PyExn PyVal
  | .Ok v => .ok v
  | .Err e => .error e

/-! ## Serialization codec

The spec treats the codec (`ForkingPickler.dumps` / `loads`) as an
out-of-scope black box required only to round-trip values. This is a
concrete instantiation of that black box for result envelopes: a
self-delimiting byte encoding with a verified decoder, so that the full
worker-to-host result path (pickle, frame, unframe, unpickle, unwrap) can
be evaluated and proved end to end. -/

/-- Self-delimiting byte encoding of a natural number. -/
def encNat (n : Nat) : Bytes := List.replicate n 255 ++ [254]

/-- Decoder matching `encNat`; returns the value and the remaining
bytes. -/
def decNat : Bytes → Option (Nat × Bytes)
  | [] => Option.none
  | 254 :: rest => Option.some (0, rest)
  | 255 :: rest =>
    match decNat rest with
    | Option.some (n, r) => Option.some (n + 1, r)
    | Option.none => Option.none
  | _ => Option.none

/-- Length-prefixed byte-string encoding. -/
def encBytes (bs : Bytes) : Bytes := encNat bs.length ++ bs

/-- Decoder matching `encBytes`. -/
def decBytes (b : Bytes) : Option (Bytes × Bytes) :=
  match decNat b with
  | Option.some (n, r) =>
    if n ≤ r.length then Option.some (r.take n, r.drop n) else Option.none
  | Option.none => Option.none

/-- Signed integer encoding: sign byte then magnitude. -/
def encInt (i : Int) : Bytes :=
  (if i < 0 then [1] else [0]) ++ encNat i.natAbs

/-- Decoder matching `encInt`. -/
def decInt : Bytes → Option (Int × Bytes)
  | 0 :: rest =>
    match decNat rest with
    | Option.some (n, r) => Option.some ((n : Int), r)
    | Option.none => Option.none
  | 1 :: rest =>
    match decNat rest with
    | Option.some (n, r) => Option.some (-(n : Int), r)
    | Option.none => Option.none
  | _ => Option.none

/-- Tagged encoding of a Python value. -/
def encVal : PyVal → Bytes
  | .none => [0]
  | .bool b => [1, if b then 1 else 0]
  | .int i => 2 :: encInt i
  | .bytes bs => 3 :: encBytes bs
  | .coroutine n => 4 :: encNat n

/-- Decoder matching `encVal`. -/
def decVal : Bytes → Option (PyVal × Bytes)
  | 0 :: rest => Option.some (.none, rest)
  | 1 :: 1 :: rest => Option.some (.bool true, rest)
  | 1 :: 0 :: rest => Option.some (.bool false, rest)
  | 2 :: rest =>
    match decInt rest with
    | Option.some (i, r) => Option.some (.int i, r)
    | Option.none => Option.none
  | 3 :: rest =>
    match decBytes rest with
    | Option.some (bs, r) => Option.some (.bytes bs, r)
    | Option.none => Option.none
  | 4 :: rest =>
    match decNat rest with
    | Option.some (n, r) => Option.some (.coroutine n, r)
    | Option.none => Option.none
  | _ => Option.none

/-- Tagged encoding of an exception kind. -/
def encKind : ExnKind → Bytes
  | .typeError => [0]
  | .zeroDivisionError => [1]
  | .valueError => [2]
  | .indexError => [3]
  | .userDefined n => 4 :: encNat n

/-- Decoder matching `encKind`. -/
def decKind : Bytes → Option (ExnKind × Bytes)
  | 0 :: rest => Option.some (.typeError, rest)
  | 1 :: rest => Option.some (.zeroDivisionError, rest)
  | 2 :: rest => Option.some (.valueError, rest)
  | 3 :: rest => Option.some (.indexError, rest)
  | 4 :: rest =>
    match decNat rest with
    | Option.some (n, r) => Option.some (.userDefined n, r)
    | Option.none => Option.none
  | _ => Option.none

/-- Encoding of an exception: kind then message. -/
def encExn (e : PyExn) : Bytes := encKind e.kind ++ encBytes e.msg

/-- Decoder matching `encExn`. -/
def decExn (b : Bytes) : Option (PyExn × Bytes) :=
  match decKind b with
  | Option.some (k, r) =>
    match decBytes r with
    | Option.some (m, r2) => Option.some (⟨k, m⟩, r2)
    | Option.none => Option.none
  | Option.none => Option.none

/-- Model of `ForkingPickler.dumps` on a result envelope. -/
def dumpsOutcome : Outcome → Bytes
  | .Ok v => 0 :: encVal v
  | .Err e => 1 :: encExn e

/-- Model of `ForkingPickler.loads` on a result envelope. -/
def loadsOutcome (b : Bytes) : Option Outcome :=
  match b with
  | 0 :: rest =>
    match decVal rest with
    | Option.some (v, _) => Option.some (.Ok v)
    | Option.none => Option.none
  | 1 :: rest =>
    match decExn rest with
    | Option.some (e, _) => Option.some (.Err e)
    | Option.none => Option.none
  | _ => Option.none

/-! ### Codec round-trip lemmas -/

theorem decNat_encNat (n : Nat) (rest : Bytes) :
    decNat (encNat n ++ rest) = Option.some (n, rest) := by
  induction n with
  | zero => rfl
  | succ m ih =>
    simp only [encNat, List.replicate_succ, List.cons_append, decNat,
      List.append_eq] at ih ⊢
    rw [ih]

theorem decBytes_encBytes (bs rest : Bytes) :
    decBytes (encBytes bs ++ rest) = Option.some (bs, rest) := by
  simp only [encBytes, decBytes, List.append_assoc, decNat_encNat]
  simp [List.take_append_of_le_length, List.drop_append_of_le_length]

theorem decInt_encInt (i : Int) (rest : Bytes) :
    decInt (encInt i ++ rest) = Option.some (i, rest) := by
  by_cases h : i < 0
  · simp only [encInt, if_pos h, List.cons_append, List.nil_append, decInt,
      decNat_encNat]
    congr 2
    omega
  · simp only [encInt, if_neg h, List.cons_append, List.nil_append, decInt,
      decNat_encNat]
    congr 2
    omega

theorem decVal_encVal (v : PyVal) (rest : Bytes) :
    decVal (encVal v ++ rest) = Option.some (v, rest) := by
  match v with
  | .none => rfl
  | .bool b => cases b <;> rfl
  | .int i => simp only [encVal, List.cons_append, decVal, decInt_encInt]
  | .bytes bs => simp only [encVal, List.cons_append, decVal, decBytes_encBytes]
  | .coroutine n => simp only [encVal, List.cons_append, decVal, decNat_encNat]

theorem decKind_encKind (k : ExnKind) (rest : Bytes) :
    decKind (encKind k ++ rest) = Option.some (k, rest) := by
  match k with
  | .typeError => rfl
  | .zeroDivisionError => rfl
  | .valueError => rfl
  | .indexError => rfl
  | .userDefined n => simp only [encKind, List.cons_append, decKind, decNat_encNat]

theorem decExn_encExn (e : PyExn) (rest : Bytes) :
    decExn (encExn e ++ rest) = Option.some (e, rest) := by
  simp only [encExn, decExn, List.append_assoc, decKind_encKind,
    decBytes_encBytes]

/-- The codec instance round-trips result envelopes, as the spec requires
of the black-box codec. -/
theorem loads_dumps (o : Outcome) : loadsOutcome (dumpsOutcome o) = Option.some o := by
  match o with
  | .Ok v =>
    have := decVal_encVal v []
    simp only [List.append_nil] at this
    simp only [dumpsOutcome, loadsOutcome, this]
  | .Err e =>
    have := decExn_encExn e []
    simp only [List.append_nil] at this
    simp only [dumpsOutcome, loadsOutcome, this]

/-! ## Worker main loop

The worker side of the barrier handshake. Each iteration of the loop in
`WorkerProcBase._work` waits on the 2-party barrier; the wait either
delivers a job (the host woke the worker and then sends a framed request)
or raises `BrokenBarrierError` (idle timeout fired or the host aborted
the barrier). The sequence of wait results is modelled as a schedule of
events; an exhausted schedule means the loop is still parked at the
barrier. -/

inductive BarrierEvent where
  | broken
  | job : PyFn → List PyVal → BarrierEvent

inductive WorkerExit where
  | exited : Nat → WorkerExit  -- clean return from _work; process exit code
  | parked                     -- still waiting at the barrier
  deriving DecidableEq, Repr

structure WorkerRun where
  sent : List Outcome
  exit : WorkerExit
  deriving Repr

/-- Transcription of `WorkerProcBase._work` (`_proc.py` lines 57-75):
wait on the barrier; on broken barrier return (the process then exits
with code 0); otherwise receive `(fn, args)`, capture the outcome of
`coroutine_checker`, send the envelope, and loop. -/
def work : List BarrierEvent → WorkerRun
  | [] => ⟨[], .parked⟩
  | .broken :: _ => ⟨[], .exited 0⟩
  | .job fn args :: rest =>
    let result := capture (coroutine_checker fn args)
    let r := work rest
    ⟨result :: r.sent, r.exit⟩

/-! ## Scoped worker loop

The dispatcher of `_impl.py` constructs workers as
`ctx.worker_class(ctx.idle_timeout, ctx.retire)` (line 177) with classes
drawn from `WORKER_PROC_MAP`; the revision of `_proc.py` defining that
map and the worker class accepting `(idle_timeout, retire)` is not among
the sources (the `_proc.py` present is an earlier revision whose loop
takes neither parameter), so the loop honoring them is modelled from
spec sections 4.B and 4.E. -/

/-- Model of the scope configuration record `WorkerContext`
(`_impl.py` lines 50-55) in the fields the worker consumes: the idle
timeout in seconds and the retire predicate. The retire callable may
keep process-global state, threaded here explicitly. -/
structure WorkerContext (ρ : Type) where
  idle_timeout : ℚ
  retire : ρ → Bool × ρ

inductive ScopedExit where
  | retired : Nat → ScopedExit   -- exited after retire() returned truthy
  | idleExit : Nat → ScopedExit  -- exited after a broken barrier wait
  | parked                       -- still waiting at the barrier
  deriving DecidableEq, Repr

/-- Whether a scoped worker exit was caused by the retire vote. -/
def ScopedExit.isRetired : ScopedExit → Bool
  | .retired _ => true
  | _ => false

structure ScopedRun where
  sent : List Outcome
  waits : List ℚ      -- timeout passed to each barrier wait entered
  retireCalls : Nat
  exit : ScopedExit
  deriving Repr

/-- Modelled from the spec: the main loop of the worker class in
`WORKER_PROC_MAP`, which is absent from the sources; per spec 4.B and
4.E the worker calls `retire()` before each job-wait and exits cleanly
when it returns a truthy value, then waits on the 2-party barrier with
the scope-configured `idle_timeout`, exits cleanly (code 0) if the wait
raises broken-barrier, and otherwise receives a job, captures its
outcome through `coroutine_checker` and sends the envelope back. -/
def workScoped {ρ : Type} (idle_timeout : ℚ) (retire : ρ → Bool × ρ) :
    ρ → List BarrierEvent → ScopedRun
  | s, events =>
    if (retire s).1 then ⟨[], [], 1, .retired 0⟩
    else
      match events with
      | [] => ⟨[], [idle_timeout], 1, .parked⟩
      | .broken :: _ => ⟨[], [idle_timeout], 1, .idleExit 0⟩
      | .job fn args :: rest =>
        let result := capture (coroutine_checker fn args)
        let r := workScoped idle_timeout retire (retire s).2 rest
        ⟨result :: r.sent, idle_timeout :: r.waits, 1 + r.retireCalls, r.exit⟩

/-- Run of a worker constructed by the dispatcher: `_impl.run_sync` line
177 passes the context fields to the worker class, so the loop runs with
`ctx.idle_timeout` and `ctx.retire`. -/
def spawnWorkerRun {ρ : Type} (ctx : WorkerContext ρ) (s : ρ)
    (events : List BarrierEvent) : ScopedRun :=
  workScoped ctx.idle_timeout ctx.retire s events

/-! ## Worker handle and dispatcher step

Transcription of `WorkerProcBase.run_sync` (`_proc.py` lines 77-93) and
the surrounding dispatcher iteration of `_impl.run_sync` (lines
174-183). The combined send-and-receive over the pipes is modelled by
its observable result: an envelope was delivered, the channel hit
framing-EOF (`trio.EndOfChannel`), or some other `BaseException`
(cancellation included) interrupted it. -/

inductive FailKind where
  | cancelled
  | other : Nat → FailKind
  deriving DecidableEq, Repr

inductive SendRecvEvent where
  | delivered : Outcome → SendRecvEvent
  | endOfChannel
  | failure : FailKind → SendRecvEvent

structure Handle where
  killed : Bool
  deriving DecidableEq, Repr

inductive RunSyncOut where
  | ret : PyVal → RunSyncOut      -- returned result.unwrap()
  | userExn : PyExn → RunSyncOut  -- result.unwrap() re-raised the Err
  | brokenWorker                  -- raised BrokenWorkerError
  | propagate : FailKind → RunSyncOut
  deriving DecidableEq, Repr

/-- Transcription of `WorkerProcBase.run_sync` (`_proc.py` lines 77-93):
on `EndOfChannel` call `kill()` and raise `BrokenWorkerError`; on any
other `BaseException` call `kill()` and re-raise; otherwise (the `else`
clause, not covered by the handlers) return `result.unwrap()`, which
re-raises an `Err` envelope without killing. -/
def proc_run_sync (ev : SendRecvEvent) (h : Handle) : RunSyncOut × Handle :=
  match ev with
  | .delivered env =>
    match env.unwrap with
    | .ok v => (.ret v, h)
    | .error e => (.userExn e, h)
  | .endOfChannel => (.brokenWorker, ⟨true⟩)
  | .failure k => (.propagate k, ⟨true⟩)

/-- One dispatcher iteration around the handle (`_impl.run_sync` lines
174-183): when `proc.run_sync` returns, the handle is appended back to
the cache; when it raises, the exception propagates and the append is
never reached. -/
def dispatch_step (ev : SendRecvEvent) (cache : List Handle) (h : Handle) :
    RunSyncOut × List Handle × Handle :=
  let (out, h') := proc_run_sync ev h
  match out with
  | .ret v => (.ret v, cache ++ [h'], h')
  | o => (o, cache, h')

/-! ## End-to-end result pipeline

Composition of the worker computation (`_proc.py` line 66), the codec,
the framed channel and the host-side unwrap (`_proc.py` lines 81-93):
the worker captures the outcome of `coroutine_checker`, pickles it,
sends it as one framed message; the host receives the frame, unpickles,
and unwraps. The job direction carries `fn` and `args` through the same
black-box codec and is modelled by handing them to the worker directly. -/
def run_sync_pipeline (s1 s2 s3 : List Nat) (fn : PyFn) (args : List PyVal) :
    Option (Except PyExn PyVal) :=
  let envelope := capture (coroutine_checker fn args)
  let wire := send_wire (dumpsOutcome envelope)
  match recv_msg s1 s2 s3 wire with
  | .error _ => Option.none
  | .ok (payload, _) =>
    match loadsOutcome payload with
    | Option.some env => Option.some env.unwrap
    | Option.none => Option.none

/-! ## Worker cache

Transcription of `ProcCache` (`_worker_processes.py` lines 53-86). The
deque is a list whose left end is the oldest (cold) end; `push` appends
on the right (hot) end; `pop` pops from the right end in a loop,
dropping handles whose process is found dead, until a live one is found
or the deque raises `IndexError` on emptiness. Aliveness is a stable
predicate during the scan. -/

namespace ProcCache

/-- Transcription of `ProcCache.push` (lines 75-76). -/
def push {H : Type} (cache : List H) (h : H) : List H := cache ++ [h]

/-- Transcription of `ProcCache.pop` (lines 78-83), recursing toward the
right end of the list: pop the most recent element, return it if alive,
drop it and continue otherwise; `Option.none` models the `IndexError`
escaping when the deque is empty. -/
def pop {H : Type} (alive : H → Bool) : List H → Option (H × List H)
  | [] => Option.none
  | h :: t =>
    match pop alive t with
    | Option.some (x, t') => Option.some (x, h :: t')
    | Option.none => if alive h then Option.some (h, []) else Option.none

end ProcCache

/-! ## Scope validation

Transcription of the argument validation at the top of `cache_scope`
(`_impl.py` lines 102-110): worker kind membership, non-negative idle
timeout, callable retire, in that order, before the context (with its
fresh empty cache) is created. A non-member worker kind argument is
modelled as `Option.none`, a non-callable retire argument likewise. -/

inductive WorkerType where
  | spawn
  | fork
  | forkserver
  deriving DecidableEq, Repr

inductive ScopeError where
  | valueError
  deriving DecidableEq, Repr

structure ScopeArgs (ρ : Type) where
  worker_type : Option WorkerType
  idle_timeout : ℚ
  retire : Option (ρ → Bool × ρ)

structure ScopeContext (ρ : Type) where
  idle_timeout : ℚ
  retire : ρ → Bool × ρ
  worker_type : WorkerType
  cache : List Handle

/-- Transcription of `cache_scope` entry (`_impl.py` lines 102-110):
validation raises `ValueError` synchronously; only past validation is
the `WorkerContext` with a fresh empty cache constructed, and no worker
process is spawned at entry (workers are spawned lazily by
`run_sync`). -/
def cache_scope_enter {ρ : Type} (a : ScopeArgs ρ) :
    Except ScopeError (ScopeContext ρ) :=
  match a.worker_type with
  | Option.none => .error .valueError
  | Option.some wt =>
    if a.idle_timeout < 0 then .error .valueError
    else
      match a.retire with
      | Option.none => .error .valueError
      | Option.some r => .ok ⟨a.idle_timeout, r, wt, []⟩

/-! ## Default limiter

Transcription of `DEFAULT_LIMIT` and `current_default_worker_limiter`
(`_impl.py` lines 13-32). The `RunVar` storage is per async run,
modelled as explicit state; limiter identity is a numeric tag so that
object identity is expressible. -/

structure CapacityLimiter where
  total_tokens : Nat
  id : Nat
  deriving DecidableEq, Repr

/-- Transcription of `DEFAULT_LIMIT = os.cpu_count() or 1`: `or` takes
the right operand when the left is falsy (`None` or `0`). -/
def DEFAULT_LIMIT (cpu_count : Option Nat) : Nat :=
  match cpu_count with
  | Option.none => 1
  | Option.some n => if n = 0 then 1 else n

structure RunState where
  proc_limiter : Option CapacityLimiter  -- the RunVar, unset at run start
  next_id : Nat
  deriving DecidableEq, Repr

/-- Transcription of `current_default_worker_limiter` (`_impl.py` lines
18-32): return the run-local limiter when set; otherwise create one with
`DEFAULT_LIMIT` tokens, store it in the run-local variable, and return
it. -/
def current_default_worker_limiter (cpu_count : Option Nat) (st : RunState) :
    CapacityLimiter × RunState :=
  match st.proc_limiter with
  | Option.some l => (l, st)
  | Option.none =>
    let l : CapacityLimiter := ⟨DEFAULT_LIMIT cpu_count, st.next_id⟩
    (l, ⟨Option.some l, st.next_id + 1⟩)

/-! ## Scoped worker loop lemmas -/

theorem workScoped_retire_true {ρ : Type} (τ : ℚ) (retire : ρ → Bool × ρ)
    (s : ρ) (events : List BarrierEvent) (h : (retire s).1 = true) :
    workScoped τ retire s events = ⟨[], [], 1, .retired 0⟩ := by
  conv_lhs => rw [workScoped.eq_def]
  simp [h]

theorem workScoped_nil {ρ : Type} (τ : ℚ) (retire : ρ → Bool × ρ) (s : ρ)
    (h : (retire s).1 = false) :
    workScoped τ retire s [] = ⟨[], [τ], 1, .parked⟩ := by
  conv_lhs => rw [workScoped.eq_def]
  simp [h]

theorem workScoped_broken {ρ : Type} (τ : ℚ) (retire : ρ → Bool × ρ) (s : ρ)
    (events : List BarrierEvent) (h : (retire s).1 = false) :
    workScoped τ retire s (.broken :: events) = ⟨[], [τ], 1, .idleExit 0⟩ := by
  conv_lhs => rw [workScoped.eq_def]
  simp [h]

theorem workScoped_job {ρ : Type} (τ : ℚ) (retire : ρ → Bool × ρ) (s : ρ)
    (fn : PyFn) (args : List PyVal) (rest : List BarrierEvent)
    (h : (retire s).1 = false) :
    workScoped τ retire s (.job fn args :: rest)
      = ⟨capture (coroutine_checker fn args)
            :: (workScoped τ retire (retire s).2 rest).sent,
         τ :: (workScoped τ retire (retire s).2 rest).waits,
         1 + (workScoped τ retire (retire s).2 rest).retireCalls,
         (workScoped τ retire (retire s).2 rest).exit⟩ := by
  conv_lhs => rw [workScoped.eq_def]
  simp [h]

theorem workScoped_waits {ρ : Type} (τ : ℚ) (retire : ρ → Bool × ρ) :
    ∀ (events : List BarrierEvent) (s : ρ),
      ∀ t ∈ (workScoped τ retire s events).waits, t = τ := by
  intro events
  induction events with
  | nil =>
    intro s t ht
    cases hb : (retire s).1 with
    | true =>
      rw [workScoped_retire_true τ retire s [] hb] at ht
      simp at ht
    | false =>
      rw [workScoped_nil τ retire s hb] at ht
      simpa using ht
  | cons e rest ih =>
    intro s t ht
    cases hb : (retire s).1 with
    | true =>
      rw [workScoped_retire_true τ retire s (e :: rest) hb] at ht
      simp at ht
    | false =>
      cases e with
      | broken =>
        rw [workScoped_broken τ retire s rest hb] at ht
        simpa using ht
      | job fn args =>
        rw [workScoped_job τ retire s fn args rest hb] at ht
        simp only [List.mem_cons] at ht
        rcases ht with ht | ht
        · exact ht
        · exact ih (retire s).2 t ht

theorem workScoped_idle_code {ρ : Type} (τ : ℚ) (retire : ρ → Bool × ρ) :
    ∀ (events : List BarrierEvent) (s : ρ) (c : Nat),
      (workScoped τ retire s events).exit = .idleExit c → c = 0 := by
  intro events
  induction events with
  | nil =>
    intro s c hc
    cases hb : (retire s).1 with
    | true =>
      rw [workScoped_retire_true τ retire s [] hb] at hc
      simp at hc
    | false =>
      rw [workScoped_nil τ retire s hb] at hc
      simp at hc
  | cons e rest ih =>
    intro s c hc
    cases hb : (retire s).1 with
    | true =>
      rw [workScoped_retire_true τ retire s (e :: rest) hb] at hc
      simp at hc
    | false =>
      cases e with
      | broken =>
        rw [workScoped_broken τ retire s rest hb] at hc
        simp only [ScopedExit.idleExit.injEq] at hc
        omega
      | job fn args =>
        rw [workScoped_job τ retire s fn args rest hb] at hc
        exact ih (retire s).2 c hc

theorem workScoped_count {ρ : Type} (τ : ℚ) (retire : ρ → Bool × ρ) :
    ∀ (events : List BarrierEvent) (s : ρ),
      (workScoped τ retire s events).retireCalls
        = (workScoped τ retire s events).waits.length
          + (if (workScoped τ retire s events).exit.isRetired then 1 else 0) := by
  intro events
  induction events with
  | nil =>
    intro s
    cases hb : (retire s).1 with
    | true => rw [workScoped_retire_true τ retire s [] hb]; rfl
    | false => rw [workScoped_nil τ retire s hb]; rfl
  | cons e rest ih =>
    intro s
    cases hb : (retire s).1 with
    | true => rw [workScoped_retire_true τ retire s (e :: rest) hb]; rfl
    | false =>
      cases e with
      | broken => rw [workScoped_broken τ retire s rest hb]; rfl
      | job fn args =>
        rw [workScoped_job τ retire s fn args rest hb]
        simp only [List.length_cons]
        rw [ih (retire s).2]
        omega

/-! ## Pipeline lemma -/

/-- The full result path returns the unwrapped envelope: framing and the
codec round-trip, so the host observes exactly the worker outcome. -/
theorem pipeline_eq (s1 s2 s3 : List Nat) (fn : PyFn) (args : List PyVal)
    (hlen : (dumpsOutcome (capture (coroutine_checker fn args))).length < 2 ^ 64) :
    run_sync_pipeline s1 s2 s3 fn args
      = Option.some (capture (coroutine_checker fn args)).unwrap := by
  have h1 := recv_msg_send_wire s1 s2 s3 _ hlen
  simp only [run_sync_pipeline, h1, loads_dumps]

/-! ## Cache lemmas -/

theorem pop_all_dead {H : Type} (alive : H → Bool) :
    ∀ cache : List H, (∀ x ∈ cache, alive x = false) →
      ProcCache.pop alive cache = Option.none := by
  intro cache h
  induction cache with
  | nil => rfl
  | cons a t ih =>
    simp only [ProcCache.pop]
    rw [ih (fun x hx => h x (List.mem_cons_of_mem a hx))]
    simp [h a (List.mem_cons_self a t)]

theorem pop_skips_dead {H : Type} (alive : H → Bool) (pre : List H) (h : H)
    (suf : List H) (hh : alive h = true) (hs : ∀ x ∈ suf, alive x = false) :
    ProcCache.pop alive (pre ++ h :: suf) = Option.some (h, pre) := by
  induction pre with
  | nil =>
    simp only [List.nil_append, ProcCache.pop]
    rw [pop_all_dead alive suf hs]
    simp [hh]
  | cons p ps ih =>
    simp only [List.cons_append, ProcCache.pop, List.append_eq]
    rw [ih]

/-! ## Claim theorems -/

/-- C3: for payload length `n ≤ 2^31 - 1` the wire message is the 4-byte
big-endian signed header holding `n` followed by exactly the payload;
for larger `n` it is a `-1` header, then an 8-byte big-endian unsigned
integer holding `n`, then the payload; a zero-length payload is sent as
a lone zero header with no body; and receiving after sending yields
exactly the original payload. -/
theorem claim_C3 (buf : Bytes) (s1 s2 s3 : List Nat) :
    (buf.length ≤ 0x7FFFFFFF →
      send_wire buf = pack_i32 (buf.length : Int) ++ buf)
  ∧ (buf.length > 0x7FFFFFFF →
      send_wire buf = pack_i32 (-1) ++ pack_u64 buf.length ++ buf)
  ∧ (buf = [] → send_wire buf = pack_i32 0)
  ∧ (buf.length < 2 ^ 64 →
      recv_msg s1 s2 s3 (send_wire buf) = .ok (buf, [])) := by
  refine ⟨?_, ?_, ?_, fun h => recv_msg_send_wire s1 s2 s3 buf h⟩
  · intro h
    have hbig : ¬ buf.length > 0x7FFFFFFF := by omega
    by_cases hmid : buf.length > 16384 <;>
      simp [send_wire, send_writes, hbig, hmid]
  · intro h
    simp [send_wire, send_writes, h]
  · intro h
    subst h
    decide

/-- Witness for C3 at a 3-byte payload. -/
theorem claim_C3_witness :
    send_wire [9, 8, 7] = pack_i32 ((3 : Nat) : Int) ++ [9, 8, 7]
  ∧ send_wire [] = pack_i32 0
  ∧ recv_msg [2, 1] [] [1, 1, 1] (send_wire [9, 8, 7]) = .ok ([9, 8, 7], []) :=
  ⟨(claim_C3 [9, 8, 7] [2, 1] [] [1, 1, 1]).1 (by decide),
   (claim_C3 [] [] [] []).2.2.1 rfl,
   (claim_C3 [9, 8, 7] [2, 1] [] [1, 1, 1]).2.2.2 (by decide)⟩

/-- C10: `_recv_exactly(0)` returns an empty buffer leaving the stream
untouched, performing no read, for every stream (the empty one
included, so it can never raise the framing-EOF error), and the framed
message of a zero-length payload is received successfully as empty
bytes. -/
theorem claim_C10 (sched : List Nat) (stream : Bytes) (s1 s2 s3 : List Nat) :
    recv_exactly sched stream 0 = .ok ([], stream)
  ∧ recv_msg s1 s2 s3 (send_wire []) = .ok ([], []) :=
  ⟨recv_exactly_zero sched stream, recv_msg_send_wire s1 s2 s3 [] (by decide)⟩

/-- C7: `pop` removes and returns the most recently pushed live handle,
dropping every more recently pushed handle discovered dead along the
scan, and signals `IndexError` when the cache is empty or becomes empty
during the scan; a live handle just pushed is the one popped next. -/
theorem claim_C7 {H : Type} (alive : H → Bool) (pre : List H) (h : H)
    (suf cache : List H) (hh : alive h = true)
    (hs : ∀ x ∈ suf, alive x = false) (hd : ∀ x ∈ cache, alive x = false) :
    ProcCache.pop alive (pre ++ h :: suf) = Option.some (h, pre)
  ∧ ProcCache.pop alive cache = Option.none
  ∧ ProcCache.pop alive (ProcCache.push pre h) = Option.some (h, pre) :=
  ⟨pop_skips_dead alive pre h suf hh hs,
   pop_all_dead alive cache hd,
   pop_skips_dead alive pre h [] hh (by intro x hx; cases hx)⟩

/-- Witness for C7: cache `[1, 2, 0]` with `0` dead pops `2` and keeps
`[1]`; an all-dead cache raises. -/
theorem claim_C7_witness :
    ProcCache.pop (fun n => n != 0) [1, 2, 0] = Option.some (2, [1])
  ∧ ProcCache.pop (fun n => n != 0) ([0] : List Nat) = Option.none := by
  have h := claim_C7 (fun n => n != 0) [1] 2 [0] [0]
    (by decide) (by decide) (by decide)
  exact ⟨h.1, h.2.1⟩

/-- C8: opening a cache scope with a worker kind that is not a
`WorkerType` member, a negative `idle_timeout`, or a non-callable
`retire` raises `ValueError` synchronously at scope entry; a successful
entry yields a context whose cache is fresh and empty, no worker having
been created. -/
theorem claim_C8 {ρ : Type} (a : ScopeArgs ρ) :
    ((a.worker_type = Option.none ∨ a.idle_timeout < 0 ∨ a.retire = Option.none) →
      cache_scope_enter a = .error .valueError)
  ∧ (∀ ctx, cache_scope_enter a = .ok ctx → ctx.cache = []) := by
  obtain ⟨wt, t, r⟩ := a
  constructor
  · rintro (h | h | h)
    · simp only at h
      subst h
      rfl
    · cases wt with
      | none => rfl
      | some w =>
        simp only at h
        simp [cache_scope_enter, h]
    · simp only at h
      subst h
      cases wt with
      | none => rfl
      | some w =>
        by_cases ht : t < 0 <;> simp [cache_scope_enter, ht]
  · intro ctx hctx
    cases wt with
    | none => simp [cache_scope_enter] at hctx
    | some w =>
      by_cases ht : t < 0
      · simp [cache_scope_enter, ht] at hctx
      · cases r with
        | none => simp [cache_scope_enter, ht] at hctx
        | some rf =>
          simp [cache_scope_enter, ht] at hctx
          rw [← hctx]

/-- Witness for C8: a non-member worker kind is rejected at entry. -/
theorem claim_C8_witness :
    cache_scope_enter
      (⟨Option.none, 5, Option.some (fun s => (false, s))⟩ : ScopeArgs Unit)
      = .error .valueError :=
  (claim_C8 ⟨Option.none, 5, Option.some (fun s => (false, s))⟩).1 (Or.inl rfl)

/-- C9: within one async run the default limiter accessor is idempotent:
a second call returns the identical limiter object and leaves the run
state unchanged; the limiter is created lazily on the first call with
capacity `DEFAULT_LIMIT`, which is the detected CPU count, or `1` when
detection is unavailable. -/
theorem claim_C9 (cpu : Option Nat) (st : RunState) :
    (current_default_worker_limiter cpu
        (current_default_worker_limiter cpu st).2).1
      = (current_default_worker_limiter cpu st).1
  ∧ (current_default_worker_limiter cpu
        (current_default_worker_limiter cpu st).2).2
      = (current_default_worker_limiter cpu st).2
  ∧ (st.proc_limiter = Option.none →
      (current_default_worker_limiter cpu st).1.total_tokens = DEFAULT_LIMIT cpu
      ∧ (current_default_worker_limiter cpu st).2.proc_limiter
          = Option.some (current_default_worker_limiter cpu st).1)
  ∧ DEFAULT_LIMIT Option.none = 1
  ∧ (∀ n : Nat, n ≠ 0 → DEFAULT_LIMIT (Option.some n) = n) := by
  obtain ⟨pl, ni⟩ := st
  cases pl with
  | none =>
    refine ⟨rfl, rfl, fun _ => ⟨rfl, rfl⟩, rfl, fun n hn => ?_⟩
    simp [DEFAULT_LIMIT, hn]
  | some l =>
    refine ⟨rfl, rfl, fun hc => ?_, rfl, fun n hn => ?_⟩
    · simp at hc
    · simp [DEFAULT_LIMIT, hn]

/-- Witness for C9 with 4 detected CPUs and a fresh run state. -/
theorem claim_C9_witness :
    (current_default_worker_limiter (Option.some 4)
        ⟨Option.none, 0⟩).1.total_tokens = 4
  ∧ (current_default_worker_limiter (Option.some 4)
        (current_default_worker_limiter (Option.some 4) ⟨Option.none, 0⟩).2).1
      = (current_default_worker_limiter (Option.some 4) ⟨Option.none, 0⟩).1 := by
  have h := claim_C9 (Option.some 4) ⟨Option.none, 0⟩
  exact ⟨(h.2.2.1 rfl).1, h.1⟩

/-- C1: for every pure synchronous callable and serializable arguments,
the dispatched call returns the same value the callable returns, and an
exception it raises is re-raised with the same kind and message: the
`Ok` envelope yields its value and the `Err` envelope is re-raised,
across the pickle, framing and unwrap pipeline. Serializability is the
requirement that the pickled envelope fits the wire format. -/
theorem claim_C1 (fn : PyFn) (args : List PyVal) (s1 s2 s3 : List Nat)
    (hlen : (dumpsOutcome (capture (coroutine_checker fn args))).length < 2 ^ 64) :
    (∀ v, fn args = .ok v → iscoroutine v = false →
      run_sync_pipeline s1 s2 s3 fn args = Option.some (.ok v))
  ∧ (∀ e, fn args = .error e →
      run_sync_pipeline s1 s2 s3 fn args = Option.some (.error e)) := by
  constructor
  · intro v hv hco
    rw [pipeline_eq s1 s2 s3 fn args hlen]
    simp [coroutine_checker, hv, hco, capture, Outcome.unwrap]
  · intro e he
    rw [pipeline_eq s1 s2 s3 fn args hlen]
    simp [coroutine_checker, he, capture, Outcome.unwrap]

/-- Concrete callable for the C1 witness: squares its integer
argument. -/
def sqFn : PyFn := fun args =>
  match args with
  | [.int i] => .ok (.int (i * i))
  | _ => .error ⟨.typeError, []⟩

/-- Witness for C1: `run_sync(square, 7)` comes back as `49`. -/
theorem claim_C1_witness :
    run_sync_pipeline [] [] [] sqFn [.int 7] = Option.some (.ok (.int 49)) :=
  (claim_C1 sqFn [.int 7] [] [] [] (by decide)).1 (.int 49) rfl rfl

/-- C2: a `run_sync` of the worker handle that hits framing-EOF kills
the handle and raises `BrokenWorker`; any other failure during
send or receive (cancellation included) kills the handle and propagates;
an envelope delivery never kills; and the dispatcher re-appends the
handle to the cache only when the handle call returned cleanly. -/
theorem claim_C2 (ev : SendRecvEvent) (cache : List Handle) (h : Handle) :
    (ev = .endOfChannel →
      proc_run_sync ev h = (.brokenWorker, ⟨true⟩)
      ∧ dispatch_step ev cache h = (.brokenWorker, cache, ⟨true⟩))
  ∧ (∀ k, ev = .failure k →
      proc_run_sync ev h = (.propagate k, ⟨true⟩)
      ∧ dispatch_step ev cache h = (.propagate k, cache, ⟨true⟩))
  ∧ (∀ env, ev = .delivered env → (proc_run_sync ev h).2 = h)
  ∧ ((dispatch_step ev cache h).2.1 ≠ cache →
      ∃ v, (dispatch_step ev cache h).1 = .ret v
        ∧ (dispatch_step ev cache h).2.1
            = ProcCache.push cache (proc_run_sync ev h).2) := by
  refine ⟨?_, ?_, ?_, ?_⟩
  · rintro rfl
    exact ⟨rfl, rfl⟩
  · rintro k rfl
    exact ⟨rfl, rfl⟩
  · rintro env rfl
    cases env <;> rfl
  · intro hne
    cases ev with
    | delivered env =>
      cases env with
      | Ok v => exact ⟨v, rfl, rfl⟩
      | Err e => exact absurd rfl hne
    | endOfChannel => exact absurd rfl hne
    | failure k => exact absurd rfl hne

/-- Witness for C2: framing-EOF on a live handle kills it, raises
`BrokenWorker` and leaves the cache unchanged; a cancellation kills and
propagates. -/
theorem claim_C2_witness :
    proc_run_sync .endOfChannel ⟨false⟩ = (.brokenWorker, ⟨true⟩)
  ∧ dispatch_step .endOfChannel [] ⟨false⟩ = (.brokenWorker, [], ⟨true⟩)
  ∧ proc_run_sync (.failure .cancelled) ⟨false⟩
      = (.propagate .cancelled, ⟨true⟩) :=
  ⟨((claim_C2 .endOfChannel [] ⟨false⟩).1 rfl).1,
   ((claim_C2 .endOfChannel [] ⟨false⟩).1 rfl).2,
   ((claim_C2 (.failure .cancelled) [] ⟨false⟩).2.1 .cancelled rfl).1⟩

/-- C4: a worker spawned from a scope with a retire predicate invokes
`retire()` exactly once before each poll-for-work barrier wait (the call
count equals the wait count, plus the final call when the vote ended the
loop), and exits as soon as `retire()` returns a truthy value,
processing nothing further. -/
theorem claim_C4 {ρ : Type} (ctx : WorkerContext ρ) (s : ρ)
    (events : List BarrierEvent) :
    ((ctx.retire s).1 = true →
      spawnWorkerRun ctx s events = ⟨[], [], 1, .retired 0⟩)
  ∧ (spawnWorkerRun ctx s events).retireCalls
      = (spawnWorkerRun ctx s events).waits.length
        + (if (spawnWorkerRun ctx s events).exit.isRetired then 1 else 0) :=
  ⟨fun h => workScoped_retire_true ctx.idle_timeout ctx.retire s events h,
   workScoped_count ctx.idle_timeout ctx.retire events s⟩

/-- Witness for C4: a counter-based retire predicate that votes from its
second call; the worker exits by retire with one retire call and no
wait, and a one-job run makes exactly two retire calls. -/
theorem claim_C4_witness :
    spawnWorkerRun
        (⟨600, fun s => (decide (1 ≤ s), s + 1)⟩ : WorkerContext Nat) 1
        [.broken]
      = ⟨[], [], 1, .retired 0⟩
  ∧ (spawnWorkerRun
        (⟨600, fun s => (decide (1 ≤ s), s + 1)⟩ : WorkerContext Nat) 0
        [.job (fun _ => .ok .none) [], .broken]).retireCalls = 2 := by
  refine ⟨(claim_C4 _ 1 [.broken]).1 (by decide), ?_⟩
  have h2 := (claim_C4
    (⟨600, fun s => (decide (1 ≤ s), s + 1)⟩ : WorkerContext Nat) 0
    [.job (fun _ => .ok .none) [], .broken]).2
  rw [h2]
  rfl

/-- C5: every poll-for-work barrier wait of a worker spawned under a
context uses the scope-configured `idle_timeout` as the wait timeout,
and a wait that raises broken-barrier makes the worker exit cleanly with
exit code 0. -/
theorem claim_C5 {ρ : Type} (ctx : WorkerContext ρ) (s : ρ)
    (events : List BarrierEvent) :
    (∀ t ∈ (spawnWorkerRun ctx s events).waits, t = ctx.idle_timeout)
  ∧ (∀ c, (spawnWorkerRun ctx s events).exit = .idleExit c → c = 0)
  ∧ ((ctx.retire s).1 = false →
      spawnWorkerRun ctx s (.broken :: events)
        = ⟨[], [ctx.idle_timeout], 1, .idleExit 0⟩) :=
  ⟨workScoped_waits ctx.idle_timeout ctx.retire events s,
   workScoped_idle_code ctx.idle_timeout ctx.retire events s,
   fun h => workScoped_broken ctx.idle_timeout ctx.retire s events h⟩

/-- Witness for C5: a scope with `idle_timeout = 5`; the first wait uses
timeout 5 and a broken barrier exits the worker cleanly with code 0. -/
theorem claim_C5_witness :
    spawnWorkerRun (⟨5, fun s : Unit => (false, s)⟩ : WorkerContext Unit) ()
        [.broken]
      = ⟨[], [5], 1, .idleExit 0⟩ :=
  (claim_C5 (⟨5, fun s : Unit => (false, s)⟩ : WorkerContext Unit) () []).2.2
    rfl

/-- C6: when the callable returns a coroutine object, the worker closes
it and raises a `TypeError`, which is captured as the `Err` envelope
and delivered to the caller as the user exception, and the worker main
loop continues with the remaining events, staying reusable. -/
theorem claim_C6 (fn : PyFn) (args : List PyVal) (cid : Nat)
    (rest : List BarrierEvent) (s1 s2 s3 : List Nat)
    (hret : fn args = .ok (.coroutine cid)) :
    coroutine_checker fn args = .error ⟨.typeError, asyncFnMsg⟩
  ∧ coroutine_checker_closes fn args = true
  ∧ work (.job fn args :: rest)
      = ⟨.Err ⟨.typeError, asyncFnMsg⟩ :: (work rest).sent, (work rest).exit⟩
  ∧ run_sync_pipeline s1 s2 s3 fn args
      = Option.some (.error ⟨.typeError, asyncFnMsg⟩) := by
  have hcc : coroutine_checker fn args = .error ⟨.typeError, asyncFnMsg⟩ := by
    simp [coroutine_checker, hret, iscoroutine]
  refine ⟨hcc, ?_, ?_, ?_⟩
  · simp [coroutine_checker_closes, hret, iscoroutine]
  · simp [work, hcc, capture]
  · have hlen : (dumpsOutcome (capture (coroutine_checker fn args))).length
        < 2 ^ 64 := by
      rw [hcc]
      decide
    rw [pipeline_eq s1 s2 s3 fn args hlen, hcc]
    rfl

/-- Concrete callable for the C6 witness: returns an unstarted
coroutine object. -/
def coroFn : PyFn := fun _ => .ok (.coroutine 0)

/-- Witness for C6: the coroutine-returning callable produces a closed
coroutine and a `TypeError` delivered as the user exception. -/
theorem claim_C6_witness :
    coroutine_checker coroFn [] = .error ⟨.typeError, asyncFnMsg⟩
  ∧ coroutine_checker_closes coroFn [] = true
  ∧ run_sync_pipeline [] [] [] coroFn []
      = Option.some (.error ⟨.typeError, asyncFnMsg⟩) := by
  have h := claim_C6 coroFn [] 0 [] [] [] [] rfl
  exact ⟨h.1, h.2.1, h.2.2.2⟩

end TrioParallel
